import Mathlib

/-!
Verification development for the DVR/recording core of the EasyProxy
repository: a shallow embedding of `services/recording_db.py` (the SQLite
`RecordingDB` job store) and `services/recording_manager.py` (the
`RecordingManager` capture supervisor), together with theorems settling the
specification claims about them.

Conventions of the embedding:
* SQLite rows become a `List Job`; every statement of `recording_db.py` is a
  pure function on that list returning the updated list together with the
  value the Python method returns.
* Python string operations (`startswith`, `in`, `lower`, `strip`,
  `split('\n')`, `str(...)`) are re-implemented as executable Lean functions
  over `List Char` so every theorem can be evaluated by the kernel.
* External effects (HTTP fetch of the master playlist, process spawn, pid
  liveness, the file system, and wall-clock timestamps) are passed in as
  explicit arguments or as an `ExtOracle` oracle record, so each code path is a
  total function of the state plus those inputs.
* `config.py` is not part of the provided sources; the values it exports
  (`PORT`, `API_PASSWORD`) are modelled as fields of `Settings`.
-/

/-- Decimal digit character for `k < 10`, i.e. `chr(48 + k)`. -/
def digitCh (k : Nat) : Char := Char.ofNat (48 + k % 10)

/-- Decimal digits of a natural number, most significant first.
Models Python `str(n)` for a non-negative integer. -/
def natDigits (n : Nat) : List Char :=
  if _h : n < 10 then [digitCh n]
  else natDigits (n / 10) ++ [digitCh (n % 10)]
decreasing_by
  exact Nat.div_lt_self (Nat.pos_of_ne_zero (by omega)) (by omega)

/-- Python `str(n)` for a natural number. -/
def pyStr (n : Nat) : String := ⟨natDigits n⟩

/-- Python `s.startswith(pre)`. -/
def pyStartsWith (s pre : String) : Bool := pre.data.isPrefixOf s.data

/-- Contiguous-subsequence test on character lists (Python `sub in s`). -/
def containsSeq (a : List Char) : List Char → Bool
  | [] => a.isEmpty
  | c :: bs => a.isPrefixOf (c :: bs) || containsSeq a bs

/-- Python `sub in s` for strings. -/
def pyIn (sub s : String) : Bool := containsSeq sub.data s.data

/-- Python `s.lower()` (ASCII case folding suffices for the URLs involved). -/
def pyLower (s : String) : String := ⟨s.data.map Char.toLower⟩

/-- Python whitespace as stripped by `str.strip()`. -/
def pyIsSpace (c : Char) : Bool :=
  c == ' ' || c == '\t' || c == '\n' || c == '\r' || c == '\x0b' || c == '\x0c'

/-- Python `s.strip()`. -/
def pyStrip (s : String) : String :=
  ⟨((s.data.dropWhile pyIsSpace).reverse.dropWhile pyIsSpace).reverse⟩

/-- Python `s.split('\n')` at the character-list level. -/
def splitNL : List Char → List (List Char)
  | [] => [[]]
  | c :: rest =>
    let r := splitNL rest
    if c == '\n' then [] :: r
    else
      match r with
      | l :: ls => (c :: l) :: ls
      | [] => [[c]]

/-- The lines of a playlist body: `content.strip().split('\n')`. -/
def pyLines (content : String) : List String :=
  (splitNL (pyStrip content).data).map fun l => ⟨l⟩

/-- Byte-wise lexicographic "less than" on code-point lists; models the
SQLite `TEXT` comparison `started_at < ?` used by `get_old_recordings`. -/
def charsLt : List Char → List Char → Bool
  | [], [] => false
  | [], _ :: _ => true
  | _ :: _, [] => false
  | a :: as, b :: bs => if a < b then true else if b < a then false else charsLt as bs

/-- `TEXT` comparison on strings. -/
def strLt (a b : String) : Bool := charsLt a.data b.data

/-- Upper-case hexadecimal digit, `k < 16`. -/
def hexCh (k : Nat) : Char :=
  if k % 16 < 10 then Char.ofNat (48 + k % 16) else Char.ofNat (65 + k % 16 - 10)

/-- `urllib.parse.quote_plus` on one character: safe characters kept, space
becomes `+`, anything else percent-encoded byte-wise (UTF-8, upper case). -/
def quotePlusChar (c : Char) : List Char :=
  if c.isAlphanum || c == '_' || c == '.' || c == '-' || c == '~' then [c]
  else if c == ' ' then ['+']
  else (String.utf8EncodeChar c).flatMap fun b =>
    ['%', hexCh (b.toNat / 16), hexCh (b.toNat % 16)]

/-- `urllib.parse.quote_plus` on a string. -/
def quotePlus (s : String) : String := ⟨s.data.flatMap quotePlusChar⟩

/-- `urllib.parse.urlencode` over an association list (Python dicts preserve
insertion order). -/
def urlencodePy (params : List (String × String)) : String :=
  ⟨(params.map fun kv => (quotePlus kv.1).data ++ '=' :: (quotePlus kv.2).data)
    |>.intersperse ['&'] |>.flatten⟩

/-- Python `s.split(':', 1)` under the guarantee that `':'` occurs in `s`:
the part before the first colon and the part after it. -/
def splitColon1 (s : String) : String × String :=
  (⟨s.data.takeWhile fun c => !(c == ':')⟩,
   ⟨(s.data.dropWhile fun c => !(c == ':')).drop 1⟩)

/-- Python truthiness of an optional numeric value (`None` and `0` are falsy). -/
def pyTruthyNat : Option Nat → Bool
  | none => false
  | some n => !(n == 0)

/-- Python truthiness of an optional string (`None` and `""` are falsy). -/
def pyTruthyStr : Option String → Bool
  | none => false
  | some s => !(s == "")

/-- The `status` column of a recording row.  The code stores the strings
`'starting'`, `'recording'`, `'completed'`, `'failed'`, `'stopped'`. -/
inductive Status where
  | starting
  | recording
  | completed
  | failed
  | stopped
deriving DecidableEq

/-- One row of the `recordings` table (schema in `RecordingDB._init_db`).
`NULL`able columns are `Option`s; `pid` is a `Nat` since it stores an OS
process id. -/
structure Job where
  id : String
  name : String
  url : String
  file_path : Option String := none
  status : Status
  started_at : String
  stopped_at : Option String := none
  duration_seconds : Option Nat := none
  file_size_bytes : Option Nat := none
  error_message : Option String := none
  headers : Option String := none
  clearkey : Option String := none
  pid : Option Nat := none
deriving DecidableEq

/-- A row counts toward the partial unique index
`idx_recordings_active_url … WHERE status IN ('starting', 'recording')`. -/
def isActiveRow (r : Job) : Bool := r.status == .starting || r.status == .recording

/-- Predicate selected by the partial unique index for a given url. -/
def activeUrlPred (url : String) (r : Job) : Bool := r.url == url && isActiveRow r

/-- Some row of the table has this id (`id` is the primary key). -/
def hasId (db : List Job) (id : String) : Bool := db.any fun r => r.id == id

/-- Some active row of the table has this url. -/
def hasActiveUrl (db : List Job) (url : String) : Bool := db.any (activeUrlPred url)

/-- Number of rows with the given url whose status is starting or recording. -/
def countActiveUrl (db : List Job) (url : String) : Nat :=
  (db.filter (activeUrlPred url)).length

/-- Status of the row with the given id, if any. -/
def statusOf (db : List Job) (id : String) : Option Status :=
  (db.find? fun r => r.id == id).map (·.status)

/-- `error_message` of the row with the given id, if any. -/
def errorOf (db : List Job) (id : String) : Option (Option String) :=
  (db.find? fun r => r.id == id).map (·.error_message)

namespace RecordingDB

/-- The fresh row inserted by `create_starting_entry`. -/
def mkStarting (id name url started_at : String) : Job :=
  { id := id, name := name, url := url, status := .starting, started_at := started_at }

/-- `RecordingDB.create_starting_entry`: `INSERT` of a `'starting'` row.
The insert raises `IntegrityError` — and the method returns `False` with the
transaction rolled back — exactly when the primary key `id` already exists or
the partial unique index finds another row with the same url in status
`'starting'` or `'recording'`; otherwise the row is inserted and the method
returns `True`. -/
def create_starting_entry (db : List Job) (id name url started_at : String) :
    List Job × Bool :=
  if hasId db id || hasActiveUrl db url then (db, false)
  else (db ++ [mkStarting id name url started_at], true)

/-- `RecordingDB.update_to_recording`:
`UPDATE … SET status='recording', file_path=?, headers=?, pid=? WHERE id = ?
AND status = 'starting'`; returns `rowcount > 0`. -/
def update_to_recording (db : List Job) (id file_path : String)
    (headers : Option String) (pid : Option Nat) : List Job × Bool :=
  (db.map fun r =>
     if r.id == id && r.status == .starting then
       { r with status := .recording, file_path := some file_path,
                headers := headers, pid := pid }
     else r,
   db.any fun r => r.id == id && r.status == .starting)

/-- The row rewrite performed by the `UPDATE` of `update_recording_status`:
for a terminal status the row also gets `stopped_at = now`; in both branches
the `UPDATE` is keyed on `id` only, with no condition on the current status.
The second component is `rowcount > 0`. -/
def apply_status_update (db : List Job) (id : String) (status : Status)
    (error_message : Option String) (now : String) : List Job × Bool :=
  (db.map fun r =>
     if r.id == id then
       if status == .completed || status == .failed || status == .stopped then
         { r with status := status, stopped_at := some now,
                  error_message := error_message }
       else
         { r with status := status, error_message := error_message }
     else r,
   db.any fun r => r.id == id)

/-- The `UPDATE` of `update_recording_status` would move the row with this id
back into the partial unique index `idx_recordings_active_url` while another
row is already in it with the same url. -/
def statusUpdateConflict (db : List Job) (id : String) : Bool :=
  db.any fun r => r.id == id &&
    db.any fun r2 => !(r2.id == id) && activeUrlPred r.url r2

/-- `RecordingDB.update_recording_status`.  When the requested status is
`'starting'` or `'recording'` the `UPDATE` re-enters the partial unique index
`idx_recordings_active_url`; SQLite raises `sqlite3.IntegrityError` if another
row is active with the same url, `_get_connection` rolls the transaction back
(table unchanged) and re-raises.  Otherwise the rows are rewritten and the
method returns `rowcount > 0`. -/
def update_recording_status (db : List Job) (id : String) (status : Status)
    (error_message : Option String) (now : String) :
    Except String (List Job × Bool) :=
  if (status == Status.starting || status == Status.recording)
      && statusUpdateConflict db id then
    Except.error "IntegrityError"
  else
    Except.ok (apply_status_update db id status error_message now)

/-- `RecordingDB.update_recording_file_info`. -/
def update_recording_file_info (db : List Job) (id : String)
    (duration_seconds file_size_bytes : Option Nat) : List Job × Bool :=
  (db.map fun r =>
     if r.id == id then
       { r with duration_seconds := duration_seconds,
                file_size_bytes := file_size_bytes }
     else r,
   db.any fun r => r.id == id)

/-- `RecordingDB.delete_recording`. -/
def delete_recording (db : List Job) (id : String) : List Job × Bool :=
  (db.filter fun r => !(r.id == id), db.any fun r => r.id == id)

/-- `RecordingDB.get_recording`: `SELECT * … WHERE id = ?` (id is the primary
key, so the first match is the row). -/
def get_recording (db : List Job) (id : String) : Option Job :=
  db.find? fun r => r.id == id

/-- Insertion step of a sort by `started_at` in descending order. -/
def insertByStartedDesc (r : Job) : List Job → List Job
  | [] => [r]
  | x :: xs =>
    if strLt x.started_at r.started_at then r :: x :: xs
    else x :: insertByStartedDesc r xs

/-- `ORDER BY started_at DESC` of a result set. -/
def sortByStartedDesc (l : List Job) : List Job := l.foldr insertByStartedDesc []

/-- `RecordingDB.get_all_recordings`: optional status filter,
`ORDER BY started_at DESC LIMIT ?` (the Python default limit is 100). -/
def get_all_recordings (db : List Job) (status : Option Status) (limit : Nat) :
    List Job :=
  let rows := match status with
    | some st => db.filter fun r => r.status == st
    | none => db
  (sortByStartedDesc rows).take limit

/-- `RecordingDB.get_old_recordings`: `SELECT * … WHERE started_at < ? AND
status != 'recording'`, with `cutoff` the retention-horizon timestamp computed
by the caller. -/
def get_old_recordings (db : List Job) (cutoff : String) : List Job :=
  db.filter fun r => strLt r.started_at cutoff && !(r.status == .recording)

/-- `RecordingDB.is_pid_running` with the `os.kill(pid, 0)` probe supplied as
an oracle: `None`/`0` pids are reported dead without probing. -/
def is_pid_running (alive : Nat → Bool) (pid : Option Nat) : Bool :=
  if !(pyTruthyNat pid) then false
  else match pid with
    | some p => alive p
    | none => false

end RecordingDB

/-- `StreamType` enumeration from `recording_manager.py`. -/
inductive StreamType where
  | mpd
  | vavoo
  | freeshot
  | dlhd
  | sportsonline
  | generic
deriving DecidableEq

/-- `StreamConfig` dataclass. -/
structure StreamConfig where
  video_url : String
  audio_url : Option String := none
  stream_type : StreamType := .generic
  needs_reconnect : Bool := false
  needs_extended_probe : Bool := false
deriving DecidableEq

/-- Modelled from the spec: the module-level configuration imported from
`config.py`, which is not among the provided sources.  `portStr` stands for
the decimal rendering of `PORT` inside the proxy-URL f-strings and
`apiPassword` for `API_PASSWORD` (empty string = unset/falsy), per the spec's
description of the local proxy URL and its optional auth parameter.  The
constructor arguments of `RecordingManager.__init__` ride along here. -/
structure Settings where
  portStr : String
  apiPassword : String
  recordingsDir : String
  maxDuration : Nat := 28800
  retentionDays : Nat := 7

/-- External-world oracle for the supervisor paths that touch the OS:
pid liveness (`os.kill(pid, 0)`), the output file system, the elapsed-seconds
computation `_calculate_elapsed(started_at)` (a function of the wall clock),
and the timestamp `datetime.utcnow().isoformat()` taken when a status update
runs. -/
structure ExtOracle where
  alive : Nat → Bool
  fileExists : String → Bool
  fileSize : String → Nat
  elapsedOf : String → Nat
  now : String

/-- Mutable state of one `RecordingManager` worker: the shared store plus the
worker-local `self.processes` registry (keyed by recording id; the mapped
process handles themselves live outside the model). -/
structure SupState where
  db : List Job
  processes : List String
deriving DecidableEq

namespace RecordingManager

/-- `RecordingManager.RECONNECT_TYPES`. -/
def RECONNECT_TYPES : List StreamType := [.vavoo, .freeshot, .dlhd, .sportsonline, .mpd]

/-- `RecordingManager._detect_stream_type`. -/
def detect_stream_type (url : String) : StreamType :=
  let l := pyLower url
  if pyIn ".mpd" l then .mpd
  else if pyIn "vavoo.to" l then .vavoo
  else if pyIn "popcdn.day" l || pyIn "freeshot" l then .freeshot
  else if pyIn "daddylive" l || pyIn "dlhd" l || pyIn "daddyhd" l then .dlhd
  else if pyIn "sportsonline" l || pyIn "sportzonline" l then .sportsonline
  else .generic

/-- `RecordingManager._build_proxy_params`: `{'d': url, 'no_bypass': '1'}`
plus `api_password` when `API_PASSWORD` is truthy. -/
def build_proxy_params (s : Settings) (url : String) : List (String × String) :=
  [("d", url), ("no_bypass", "1")] ++
    (if !(s.apiPassword == "") then [("api_password", s.apiPassword)] else [])

/-- The HLS passthrough manifest URL built by `_prepare_hls_config`. -/
def hlsProxyUrl (s : Settings) (url : String) : String :=
  "http://127.0.0.1:" ++ s.portStr ++ "/proxy/hls/manifest.m3u8?" ++
    urlencodePy (build_proxy_params s url)

/-- The MPD proxy parameters of `_prepare_mpd_config`: the common proxy
parameters, then `key_id`/`key` when a clearkey of the form `id:key` is
supplied. -/
def mpdProxyParams (s : Settings) (url : String) (clearkey : Option String) :
    List (String × String) :=
  build_proxy_params s url ++
    (match clearkey with
     | some ck =>
       if !(ck == "") && pyIn ":" ck then
         [("key_id", (splitColon1 ck).1), ("key", (splitColon1 ck).2)]
       else []
     | none => [])

/-- The MPD master-manifest URL built by `_prepare_mpd_config`. -/
def mpdMasterUrl (s : Settings) (url : String) (clearkey : Option String) : String :=
  "http://127.0.0.1:" ++ s.portStr ++ "/proxy/mpd/manifest.m3u8?" ++
    urlencodePy (mpdProxyParams s url clearkey)

/-- Match of the regex `URI="([^"]+)"` anchored at the current position:
the literal `URI="`, then at least one non-quote character, then `"`. -/
def uriMatchAt (xs : List Char) : Option (List Char) :=
  let body := xs.takeWhile fun c => !(c == '"')
  if body.isEmpty then none
  else
    match xs.dropWhile fun c => !(c == '"') with
    | [] => none
    | _ :: _ => some body

/-- `re.search(r'URI="([^"]+)"', line)`: the leftmost position with a full
match wins. -/
def uriSearch : List Char → Option (List Char)
  | [] => none
  | c :: rest =>
    match (if ("URI=\"").data.isPrefixOf (c :: rest)
           then uriMatchAt ((c :: rest).drop 5) else none) with
    | some b => some b
    | none => uriSearch rest

/-- The line scan of `_parse_master_playlist` over `lines`, carrying the
`video_url`/`audio_url` accumulators.  The `EXT-X-STREAM-INF` branch peeks at
`lines[i + 1]` without consuming it, exactly like the indexed Python loop. -/
def scanPlaylist : List String → Option String → Option String →
    Option String × Option String
  | [], video_url, audio_url => (video_url, audio_url)
  | line :: rest, video_url, audio_url =>
    if pyStartsWith line "#EXT-X-MEDIA:" && pyIn "TYPE=AUDIO" line then
      let audio_url' :=
        match uriSearch line.data with
        | some u =>
          if audio_url == none then
            if pyIn "DEFAULT=YES" line || audio_url == none then some ⟨u⟩
            else audio_url
          else audio_url
        | none => audio_url
      scanPlaylist rest video_url audio_url'
    else if pyStartsWith line "#EXT-X-STREAM-INF:" then
      match rest with
      | [] => scanPlaylist rest video_url audio_url
      | next :: _ =>
        let next_line := pyStrip next
        if !(next_line == "") && !(pyStartsWith next_line "#") then
          scanPlaylist rest (some next_line) audio_url
        else
          scanPlaylist rest video_url audio_url
    else scanPlaylist rest video_url audio_url

/-- Outcome of the `aiohttp` fetch of the master playlist: an HTTP response
with its status and body, or a raised exception (connection error, timeout,
…).  `_parse_master_playlist` is the only consumer. -/
inductive FetchResult where
  | response (status : Nat) (body : String)
  | exn
deriving DecidableEq

/-- `RecordingManager._parse_master_playlist`: a non-200 response or any
exception yields `(None, None)`; otherwise the body is stripped, split into
lines and scanned. -/
def parse_master_playlist (fetch : FetchResult) : Option String × Option String :=
  match fetch with
  | .exn => (none, none)
  | .response status body =>
    if !(status == 200) then (none, none)
    else scanPlaylist (pyLines body) none none

/-- `RecordingManager._prepare_mpd_config`: build the proxied master URL
(with clearkey parameters when present), parse the master playlist, and fall
back to the master URL itself with no separate audio when no video URL was
parsed.  MPD always gets `needs_reconnect` and `needs_extended_probe`. -/
def prepare_mpd_config (s : Settings) (url : String) (clearkey : Option String)
    (fetch : FetchResult) : StreamConfig :=
  let master_url := mpdMasterUrl s url clearkey
  let parsed := parse_master_playlist fetch
  match parsed.1 with
  | none =>
    { video_url := master_url, audio_url := none, stream_type := .mpd,
      needs_reconnect := true, needs_extended_probe := true }
  | some video_url =>
    { video_url := video_url, audio_url := parsed.2, stream_type := .mpd,
      needs_reconnect := true, needs_extended_probe := true }

/-- `RecordingManager._prepare_hls_config`. -/
def prepare_hls_config (s : Settings) (url : String) (stream_type : StreamType) :
    StreamConfig :=
  { video_url := hlsProxyUrl s url, audio_url := none, stream_type := stream_type,
    needs_reconnect := RECONNECT_TYPES.contains stream_type,
    needs_extended_probe := false }

/-- `RecordingManager._prepare_stream_config`: dispatch on the detected type. -/
def prepare_stream_config (s : Settings) (url : String) (clearkey : Option String)
    (fetch : FetchResult) : StreamConfig :=
  match detect_stream_type url with
  | .mpd => prepare_mpd_config s url clearkey fetch
  | ty => prepare_hls_config s url ty

/-- `RecordingManager._build_ffmpeg_command`.  `duration` is the Python
argument (`None` or an `int`; `if duration:` makes `0` falsy). -/
def build_ffmpeg_command (config : StreamConfig) (output_path : String)
    (duration : Option Nat) : List String :=
  let cmd := ["ffmpeg", "-hide_banner", "-loglevel", "info", "-y"]
  let cmd := cmd ++
    (if config.needs_extended_probe then
      ["-err_detect", "ignore_err",
       "-fflags", "+genpts+discardcorrupt+igndts+nobuffer",
       "-analyzeduration", "20000000", "-probesize", "20000000"]
     else
      ["-fflags", "+genpts+discardcorrupt+igndts",
       "-analyzeduration", "10000000", "-probesize", "10000000"])
  let cmd := cmd ++
    (if pyStartsWith config.video_url "http" then
      ["-rw_timeout", "30000000"] ++
        (if config.needs_reconnect then
          ["-reconnect", "1", "-reconnect_streamed", "1",
           "-reconnect_delay_max", "2"]
         else [])
     else [])
  let cmd := cmd ++
    (if pyIn ".m3u8" (pyLower config.video_url) then ["-live_start_index", "-1"]
     else [])
  let cmd := cmd ++
    (if pyTruthyNat duration then ["-t", pyStr (duration.getD 0)] else [])
  let cmd := cmd ++ ["-i", config.video_url]
  let cmd := cmd ++
    (match config.audio_url with
     | some audio_url =>
       (if pyStartsWith audio_url "http" then ["-rw_timeout", "30000000"] else []) ++
         ["-live_start_index", "-1"] ++ ["-i", audio_url]
     | none => [])
  let cmd := cmd ++
    (match config.audio_url with
     | some _ => ["-map", "0:v:0", "-map", "1:a:0"]
     | none => ["-map", "0:v:0", "-map", "0:a:0?"])
  cmd ++ ["-c", "copy"] ++ [output_path]

/-- `RecordingManager._generate_filename`: keep alphanumerics, space, `-`,
`_`; strip; spaces to underscores; truncate to 50; fall back to
`"recording"`; then `{recording_id}_{safe_name}.ts`. -/
def generate_filename (recording_id name : String) : String :=
  let kept := ⟨name.data.filter fun c => c.isAlphanum || c == ' ' || c == '-' || c == '_'⟩
  let safe := ⟨((pyStrip kept).data.map fun c => if c == ' ' then '_' else c).take 50⟩
  let safe := if safe == "" then "recording" else safe
  recording_id ++ "_" ++ safe ++ ".ts"

/-- `RecordingManager.start_recording` up to its return.  The inputs the real
method draws from the environment are parameters: `rid` is the value of
`_generate_recording_id()`, `genName` the generated default name, `tClaim`
the `utcnow` timestamp used by the claim insert, `fetch` the master-playlist
fetch outcome, `spawn` the result of `create_subprocess_exec` (`ok pid` or a
raised exception rendered as its message), and `tFail` the timestamp of the
failure status update.  The detached `_monitor_recording` task is not part of
the return-path state. -/
def start_recording (s : Settings) (st : SupState) (url : String)
    (name : Option String) (duration : Option Nat) (clearkey : Option String)
    (rid genName tClaim : String) (fetch : FetchResult)
    (spawn : Except String Nat) (tFail : String) : Option Job × SupState :=
  let name := if pyTruthyStr name then name.getD "" else genName
  match RecordingDB.create_starting_entry st.db rid name url tClaim with
  | (db1, false) => (none, { st with db := db1 })
  | (db1, true) =>
    let file_path := s.recordingsDir ++ "/" ++ generate_filename rid name
    let duration := if pyTruthyNat duration then min (duration.getD 0) s.maxDuration
                    else s.maxDuration
    let config := prepare_stream_config s url clearkey fetch
    let _cmd := build_ffmpeg_command config file_path (some duration)
    match spawn with
    | .error e =>
      -- `'failed'` is terminal, so this UPDATE can never hit the partial
      -- unique index; the error arm (table left as rolled back) is dead.
      (none, { st with db :=
        match RecordingDB.update_recording_status db1 rid .failed (some e) tFail with
        | .ok p => p.1
        | .error _ => db1 })
    | .ok pid =>
      let processes := st.processes ++ [rid]
      let db2 := (RecordingDB.update_to_recording db1 rid file_path none (some pid)).1
      (RecordingDB.get_recording db2 rid, { db := db2, processes := processes })

/-- `RecordingManager.stop_recording`.  The local-handle branch and the
cross-worker pid branch only signal the OS process; their store effect is the
unconditional `update_recording_status(id, 'stopped')` that follows, plus the
file-stats update when the row carries a truthy `file_path` naming an
existing file.  Returns `False` only when the id is not in the store. -/
def stop_recording (ext : ExtOracle) (st : SupState) (recording_id : String) :
    Bool × SupState :=
  match RecordingDB.get_recording st.db recording_id with
  | none => (false, st)
  | some recording =>
    let st := if st.processes.contains recording_id then
                { st with processes := st.processes.filter fun i => !(i == recording_id) }
              else st
    -- `'stopped'` is terminal, so this UPDATE can never hit the partial
    -- unique index; the error arm (table left as rolled back) is dead.
    let db := match RecordingDB.update_recording_status st.db recording_id .stopped
                none ext.now with
              | .ok p => p.1
              | .error _ => st.db
    let db :=
      if pyTruthyStr recording.file_path then
        let file_path := recording.file_path.getD ""
        if ext.fileExists file_path then
          let rec_duration := if !(recording.started_at == "") then
                                ext.elapsedOf recording.started_at
                              else 0
          (RecordingDB.update_recording_file_info db recording_id
            (some rec_duration) (some (ext.fileSize file_path))).1
        else db
      else db
    (true, { st with db := db })

/-- `RecordingManager.delete_recording`: stop first when a local handle
exists, then (best-effort) remove the output file and delete the row. -/
def delete_recording (ext : ExtOracle) (st : SupState) (recording_id : String) :
    Bool × SupState :=
  let st := if st.processes.contains recording_id then
              (stop_recording ext st recording_id).2
            else st
  match RecordingDB.get_recording st.db recording_id with
  | none => (false, st)
  | some _ =>
    let res := RecordingDB.delete_recording st.db recording_id
    (res.2, { st with db := res.1 })

/-- `RecordingManager.cleanup_old_recordings`: select the old rows once, then
delete each of them through `delete_recording`. -/
def cleanup_old_recordings (ext : ExtOracle) (st : SupState) (cutoff : String) : SupState :=
  (RecordingDB.get_old_recordings st.db cutoff).foldl
    (fun acc r => (delete_recording ext acc r.id).2) st

/-- `RecordingManager._is_recording_active`. -/
def is_recording_active (ext : ExtOracle) (processes : List String) (r : Job) : Bool :=
  if !(r.status == .recording || r.status == .starting) then false
  else if pyTruthyNat r.pid then RecordingDB.is_pid_running ext.alive r.pid
  else if r.status == .starting then true
  else processes.contains r.id

/-- The dictionary returned by `_enrich_recording`: the row plus the computed
`is_active` and (for active rows with a truthy `started_at`)
`elapsed_seconds` keys. -/
structure EnrichedJob where
  job : Job
  is_active : Bool
  elapsed_seconds : Option Nat
deriving DecidableEq

/-- `RecordingManager._enrich_recording`. -/
def enrich_recording (ext : ExtOracle) (processes : List String) (r : Job) : EnrichedJob :=
  let is_active := is_recording_active ext processes r
  { job := r, is_active := is_active,
    elapsed_seconds := if is_active && !(r.started_at == "") then
                         some (ext.elapsedOf r.started_at)
                       else none }

/-- `RecordingManager.get_active_recordings`: the store rows with status
`'recording'` (default limit 100), kept only when `_is_recording_active`
passes, each enriched. -/
def get_active_recordings (ext : ExtOracle) (st : SupState) : List EnrichedJob :=
  let recordings := RecordingDB.get_all_recordings st.db (some .recording) 100
  (recordings.filter (is_recording_active ext st.processes)).map
    (enrich_recording ext st.processes)

end RecordingManager


/-- The store writes the `RecordingManager` performs, with the arguments the
supervisor actually passes: `claim` from `start_recording`; `promote` from the
successful-spawn path; `complete`/`fail` from `_monitor_recording` and the
spawn-failure path (always a terminal status); `stopSet` from
`stop_recording`; `fileInfo` from the stop and monitor finalisations; `del`
from `delete_recording`.  A reachable `JobStore` state is the result of a
sequence of these. -/
inductive SupOp where
  | claim (id name url t : String)
  | promote (id file_path : String) (headers : Option String) (pid : Option Nat)
  | complete (id t : String)
  | fail (id : String) (err : Option String) (t : String)
  | stopSet (id t : String)
  | fileInfo (id : String) (duration size : Option Nat)
  | del (id : String)

/-- Effect of one supervisor store write. -/
def applyOp (db : List Job) : SupOp → List Job
  | .claim id name url t => (RecordingDB.create_starting_entry db id name url t).1
  | .promote id fp h p => (RecordingDB.update_to_recording db id fp h p).1
  | .complete id t =>
    match RecordingDB.update_recording_status db id .completed none t with
    | .ok p => p.1
    | .error _ => db
  | .fail id e t =>
    match RecordingDB.update_recording_status db id .failed e t with
    | .ok p => p.1
    | .error _ => db
  | .stopSet id t =>
    match RecordingDB.update_recording_status db id .stopped none t with
    | .ok p => p.1
    | .error _ => db
  | .fileInfo id d s => (RecordingDB.update_recording_file_info db id d s).1
  | .del id => (RecordingDB.delete_recording db id).1

/-- The store state after a sequence of supervisor writes, starting from the
freshly initialised (empty) table. -/
def runOps (ops : List SupOp) : List Job := ops.foldl applyOp []

/-- Store invariant: primary-key uniqueness plus the partial unique index —
no two distinct rows are both active with the same url. -/
def StoreInv (db : List Job) : Prop :=
  db.Pairwise (fun a b => ¬ a.id = b.id) ∧
    db.Pairwise (fun a b =>
      isActiveRow a = true → isActiveRow b = true → ¬ a.url = b.url)

theorem forall_mem_of_any_false {α : Type} {p : α → Bool} {l : List α}
    (h : l.any p = false) : ∀ r ∈ l, p r = false := by
  intro r hr
  by_contra hc
  have ht : l.any p = true := List.any_eq_true.mpr ⟨r, hr, by simpa using hc⟩
  simp [h] at ht

theorem filter_eq_nil_of_any_false {α : Type} {p : α → Bool} {l : List α}
    (h : l.any p = false) : l.filter p = [] := by
  induction l with
  | nil => rfl
  | cons a l ih =>
    simp only [List.any_cons, Bool.or_eq_false_iff] at h
    simp [List.filter_cons, h.1, ih h.2]

/-- For a status outside the partial unique index's scope the `UPDATE` of
`update_recording_status` cannot violate it: no `IntegrityError`. -/
theorem update_recording_status_terminal (db : List Job) (id : String)
    (status : Status) (err : Option String) (now : String)
    (h : (status == Status.starting || status == Status.recording) = false) :
    RecordingDB.update_recording_status db id status err now
      = Except.ok (RecordingDB.apply_status_update db id status err now) := by
  unfold RecordingDB.update_recording_status
  rw [h]
  simp

theorem update_status_stopped_eq (db : List Job) (id : String)
    (err : Option String) (now : String) :
    RecordingDB.update_recording_status db id Status.stopped err now
      = Except.ok (RecordingDB.apply_status_update db id Status.stopped err now) := rfl

theorem update_status_failed_eq (db : List Job) (id : String)
    (err : Option String) (now : String) :
    RecordingDB.update_recording_status db id Status.failed err now
      = Except.ok (RecordingDB.apply_status_update db id Status.failed err now) := rfl

theorem update_status_completed_eq (db : List Job) (id : String)
    (err : Option String) (now : String) :
    RecordingDB.update_recording_status db id Status.completed err now
      = Except.ok (RecordingDB.apply_status_update db id Status.completed err now) := rfl

/-- A row-wise rewrite that keeps `id`, `url` and never turns an inactive row
into an active one preserves the store invariant. -/
theorem StoreInv.map {db : List Job} {f : Job → Job}
    (hid : ∀ r, (f r).id = r.id) (hurl : ∀ r, (f r).url = r.url)
    (hact : ∀ r, isActiveRow (f r) = true → isActiveRow r = true)
    (h : StoreInv db) : StoreInv (db.map f) := by
  obtain ⟨h1, h2⟩ := h
  refine ⟨List.pairwise_map.mpr (h1.imp ?_), List.pairwise_map.mpr (h2.imp ?_)⟩
  · intro a b hab
    rw [hid, hid]; exact hab
  · intro a b hab ha hb
    rw [hurl, hurl]; exact hab (hact _ ha) (hact _ hb)

theorem StoreInv.applyOp {db : List Job} (h : StoreInv db) (op : SupOp) :
    StoreInv (applyOp db op) := by
  cases op with
  | claim id name url t =>
    show StoreInv (RecordingDB.create_starting_entry db id name url t).1
    unfold RecordingDB.create_starting_entry
    by_cases hdup : (hasId db id || hasActiveUrl db url) = true
    · rw [if_pos hdup]; exact h
    · rw [if_neg hdup]
      simp only [Bool.or_eq_true, not_or, Bool.not_eq_true] at hdup
      have hids := forall_mem_of_any_false hdup.1
      have hurls := forall_mem_of_any_false hdup.2
      obtain ⟨h1, h2⟩ := h
      constructor
      · rw [List.pairwise_append]
        refine ⟨h1, by simp, ?_⟩
        intro a ha b hb
        simp only [List.mem_singleton] at hb
        subst hb
        have := hids a ha
        simp only [beq_eq_false_iff_ne, ne_eq] at this
        simpa [RecordingDB.mkStarting] using this
      · rw [List.pairwise_append]
        refine ⟨h2, by simp, ?_⟩
        intro a ha b hb hactA _
        simp only [List.mem_singleton] at hb
        subst hb
        have := hurls a ha
        simp only [activeUrlPred, Bool.and_eq_false_iff, beq_eq_false_iff_ne, ne_eq,
          hactA] at this
        rcases this with h' | h'
        · simpa [RecordingDB.mkStarting] using h'
        · simp at h'
  | promote id fp hd p =>
    refine StoreInv.map (f := fun r =>
      if r.id == id && r.status == Status.starting then
        { r with status := .recording, file_path := some fp, headers := hd, pid := p }
      else r) ?_ ?_ ?_ h
    all_goals intro r
    · by_cases hc : (r.id == id && r.status == Status.starting) = true <;> simp [hc]
    · by_cases hc : (r.id == id && r.status == Status.starting) = true <;> simp [hc]
    · intro hr
      by_cases hc : (r.id == id && r.status == Status.starting) = true
      · have hst : r.status = Status.starting := by
          have := ((Bool.and_eq_true _ _).mp hc).2
          simpa using this
        simp [isActiveRow, hst]
      · simpa [hc] using hr
  | complete id t =>
    refine StoreInv.map ?_ ?_ ?_ h <;> intro r <;>
      by_cases hc : (r.id == id) = true <;>
        simp [RecordingDB.apply_status_update, applyOp, hc, isActiveRow]
  | fail id e t =>
    refine StoreInv.map ?_ ?_ ?_ h <;> intro r <;>
      by_cases hc : (r.id == id) = true <;>
        simp [RecordingDB.apply_status_update, applyOp, hc, isActiveRow]
  | stopSet id t =>
    refine StoreInv.map ?_ ?_ ?_ h <;> intro r <;>
      by_cases hc : (r.id == id) = true <;>
        simp [RecordingDB.apply_status_update, applyOp, hc, isActiveRow]
  | fileInfo id d s =>
    refine StoreInv.map ?_ ?_ ?_ h <;> intro r <;>
      by_cases hc : (r.id == id) = true <;>
        simp [RecordingDB.update_recording_file_info, applyOp, hc, isActiveRow]
  | del id =>
    obtain ⟨h1, h2⟩ := h
    exact ⟨List.Pairwise.sublist (List.filter_sublist _) h1,
           List.Pairwise.sublist (List.filter_sublist _) h2⟩

theorem storeInv_foldl (ops : List SupOp) :
    ∀ db, StoreInv db → StoreInv (ops.foldl applyOp db) := by
  induction ops with
  | nil => intro db h; exact h
  | cons op ops ih => intro db h; exact ih _ (h.applyOp op)

theorem storeInv_runOps (ops : List SupOp) : StoreInv (runOps ops) :=
  storeInv_foldl ops [] ⟨List.Pairwise.nil, List.Pairwise.nil⟩

theorem countActiveUrl_le_one {db : List Job} (url : String)
    (h : StoreInv db) : countActiveUrl db url ≤ 1 := by
  obtain ⟨-, h2⟩ := h
  unfold countActiveUrl
  induction db with
  | nil => simp
  | cons a l ih =>
    obtain ⟨ha, hl⟩ := List.pairwise_cons.mp h2
    by_cases hpa : activeUrlPred url a = true
    · have hnil : l.filter (activeUrlPred url) = [] := by
        apply filter_eq_nil_of_any_false
        by_contra hc
        rw [Bool.not_eq_false, List.any_eq_true] at hc
        obtain ⟨b, hb, hpb⟩ := hc
        simp only [activeUrlPred, Bool.and_eq_true, beq_iff_eq] at hpa hpb
        exact ha b hb hpa.2 hpb.2 (hpa.1.trans hpb.1.symm)
      simp [List.filter_cons, hpa, hnil]
    · simp only [List.filter_cons, hpa, Bool.false_eq_true, if_false]
      exact ih hl

theorem map_eq_self_of {α : Type} {l : List α} {f : α → α}
    (h : ∀ r ∈ l, f r = r) : l.map f = l := by
  induction l with
  | nil => rfl
  | cons a l ih => simp [h a (by simp), ih fun r hr => h r (by simp [hr])]

theorem eq_of_mem_pairwise_ids {db : List Job}
    (h : db.Pairwise fun a b => ¬ a.id = b.id) {a b : Job}
    (ha : a ∈ db) (hb : b ∈ db) (hid : a.id = b.id) : a = b := by
  induction db with
  | nil => cases ha
  | cons x l ih =>
    obtain ⟨hx, hl⟩ := List.pairwise_cons.mp h
    rcases List.mem_cons.mp ha with rfl | ha' <;> rcases List.mem_cons.mp hb with rfl | hb'
    · rfl
    · exact absurd hid (hx b hb')
    · exact absurd hid.symm (hx a ha')
    · exact ih hl ha' hb'

theorem find?_id_map (db : List Job) (f : Job → Job) (id : String)
    (hid : ∀ r, (f r).id = r.id) :
    (db.map f).find? (fun r => r.id == id) = (db.find? (fun r => r.id == id)).map f := by
  have hp : ((fun r => r.id == id) ∘ f) = (fun r : Job => r.id == id) := by
    funext r
    simp [Function.comp, hid]
  rw [List.find?_map, hp]

/-- **C1.** At every store state reachable through the supervisor's writes, at
most one row per url is in status starting/recording; `create_starting_entry`
returns `False` (no exception) whenever an active row for the url exists,
leaving the table unchanged; otherwise (with a fresh id) it inserts the
starting row — and a second claim for the same url issued before the first
resolves is rejected, leaving exactly one active row for that url. -/
theorem claim_unique_active_per_url (ops : List SupOp)
    (id name t id2 name2 t2 url : String) :
    countActiveUrl (runOps ops) url ≤ 1 ∧
    (hasActiveUrl (runOps ops) url = true →
      RecordingDB.create_starting_entry (runOps ops) id name url t = (runOps ops, false)) ∧
    (hasActiveUrl (runOps ops) url = false → hasId (runOps ops) id = false →
      RecordingDB.create_starting_entry (runOps ops) id name url t
        = (runOps ops ++ [RecordingDB.mkStarting id name url t], true) ∧
      RecordingDB.create_starting_entry
          (runOps ops ++ [RecordingDB.mkStarting id name url t]) id2 name2 url t2
        = (runOps ops ++ [RecordingDB.mkStarting id name url t], false) ∧
      countActiveUrl (runOps ops ++ [RecordingDB.mkStarting id name url t]) url = 1) := by
  refine ⟨countActiveUrl_le_one url (storeInv_runOps ops), ?_, ?_⟩
  · intro h
    unfold RecordingDB.create_starting_entry
    rw [if_pos (by simp [h])]
  · intro h1 h2
    have h1' : (runOps ops).any (activeUrlPred url) = false := h1
    refine ⟨?_, ?_, ?_⟩
    · unfold RecordingDB.create_starting_entry
      rw [if_neg (by simp [h1, h2])]
    · unfold RecordingDB.create_starting_entry
      rw [if_pos ?_]
      simp only [Bool.or_eq_true]
      right
      simp [hasActiveUrl, List.any_append, activeUrlPred, RecordingDB.mkStarting,
        isActiveRow]
    · unfold countActiveUrl
      rw [List.filter_append, filter_eq_nil_of_any_false h1']
      simp [activeUrlPred, RecordingDB.mkStarting, isActiveRow]

theorem claim_unique_active_per_url_witness :
    RecordingDB.create_starting_entry (runOps []) "rec1" "Cam" "http://h/a.m3u8" "T1"
      = (runOps [] ++ [RecordingDB.mkStarting "rec1" "Cam" "http://h/a.m3u8" "T1"], true) ∧
    RecordingDB.create_starting_entry
        (runOps [] ++ [RecordingDB.mkStarting "rec1" "Cam" "http://h/a.m3u8" "T1"])
        "rec2" "Cam" "http://h/a.m3u8" "T2"
      = (runOps [] ++ [RecordingDB.mkStarting "rec1" "Cam" "http://h/a.m3u8" "T1"], false) ∧
    countActiveUrl (runOps [] ++ [RecordingDB.mkStarting "rec1" "Cam" "http://h/a.m3u8" "T1"])
        "http://h/a.m3u8" = 1 :=
  (claim_unique_active_per_url [] "rec1" "Cam" "T1" "rec2" "Cam" "T2"
    "http://h/a.m3u8").2.2 (by decide) (by decide)

theorem statusOf_apply_status_update (db : List Job) (id : String)
    (status : Status) (err : Option String) (now : String) {r : Job}
    (h : db.find? (fun x => x.id == id) = some r) :
    statusOf (RecordingDB.apply_status_update db id status err now).1 id
      = some status := by
  have hr := List.find?_some h
  simp only at hr
  unfold statusOf RecordingDB.apply_status_update
  rw [find?_id_map _ _ _ (fun x => by
    by_cases hc : (x.id == id) = true <;>
      by_cases hs : (status == Status.completed || status == Status.failed
        || status == Status.stopped) = true <;> simp [hc, hs])]
  rw [h, Option.map_some', Option.map_some']
  rw [if_pos hr]
  by_cases hs : (status == Status.completed || status == Status.failed
      || status == Status.stopped) = true
  · rw [if_pos hs]
  · rw [if_neg hs]

theorem statusOf_update_recording_file_info (db : List Job) (id id' : String)
    (d s : Option Nat) :
    statusOf (RecordingDB.update_recording_file_info db id' d s).1 id
      = statusOf db id := by
  unfold statusOf RecordingDB.update_recording_file_info
  rw [find?_id_map _ _ _ (fun x => by
    by_cases hc : (x.id == id') = true <;> simp [hc])]
  cases h : db.find? (fun x => x.id == id) with
  | none => rfl
  | some r =>
    rw [Option.map_some', Option.map_some', Option.map_some']
    by_cases hc : (r.id == id') = true
    · rw [if_pos hc]
    · rw [if_neg hc]

/-- A fixed external-world oracle used by the concrete scenarios: no live
pids, no files on disk. -/
def extO : ExtOracle :=
  { alive := fun _ => false, fileExists := fun _ => false, fileSize := fun _ => 0,
    elapsedOf := fun _ => 0, now := "2026-02-02T00:00:00" }

/-- A store whose single row is a finished (terminal) job. -/
def doneJob : Job :=
  { id := "rec1", name := "Cam", url := "http://h/a.m3u8", status := .completed,
    started_at := "2026-01-01T00:00:00", stopped_at := some "2026-01-01T01:00:00" }

/-- `SupState` holding just `doneJob`, with no local process handles. -/
def doneState : SupState := { db := [doneJob], processes := [] }

/-- **C2, counterexample.**  The claim says stopping a job already in a
terminal status returns `False` and changes no state.  On the concrete store
holding one `completed` job, `stop_recording` instead returns `True` and
rewrites the row (status becomes `stopped`, `stopped_at` and `error_message`
are overwritten). -/
theorem stop_idempotent_counterexample :
    statusOf doneState.db "rec1" = some Status.completed ∧
    (RecordingManager.stop_recording extO doneState "rec1").1 = true ∧
    ¬ (RecordingManager.stop_recording extO doneState "rec1").2 = doneState ∧
    statusOf (RecordingManager.stop_recording extO doneState "rec1").2.db "rec1"
      = some Status.stopped := by
  refine ⟨by decide, by decide, ?_, by decide⟩
  intro h
  have := congrArg (fun st => statusOf st.db "rec1") h
  simp only at this
  rw [show statusOf (RecordingManager.stop_recording extO doneState "rec1").2.db "rec1"
      = some Status.stopped from by decide] at this
  rw [show statusOf doneState.db "rec1" = some Status.completed from by decide] at this
  cases this

/-- **C2, amended.**  `stop_recording` returns `False` with no state change
exactly for ids that are absent from the store; for any existing job —
including one already in a terminal status, and including a second stop of
the same id — it returns `True` and (re)writes the row's status to
`stopped`. -/
theorem stop_terminal_behavior (ext : ExtOracle) (st : SupState) (id : String) :
    (RecordingDB.get_recording st.db id = none →
      RecordingManager.stop_recording ext st id = (false, st)) ∧
    (∀ r, RecordingDB.get_recording st.db id = some r →
      (RecordingManager.stop_recording ext st id).1 = true ∧
      statusOf (RecordingManager.stop_recording ext st id).2.db id
        = some Status.stopped) := by
  constructor
  · intro h
    unfold RecordingManager.stop_recording
    rw [h]
  · intro r h
    unfold RecordingManager.stop_recording
    rw [h]
    simp only
    refine ⟨by trivial, ?_⟩
    by_cases hp : st.processes.contains id = true <;>
      by_cases hf : pyTruthyStr r.file_path = true <;>
        by_cases he : ext.fileExists (r.file_path.getD "") = true <;>
          simp only [hp, hf, he, if_true, if_false, Bool.false_eq_true,
            update_status_stopped_eq] <;>
            first
              | (rw [statusOf_update_recording_file_info]
                 exact statusOf_apply_status_update _ _ _ _ _ h)
              | exact statusOf_apply_status_update _ _ _ _ _ h

theorem stop_terminal_behavior_witness :
    (RecordingManager.stop_recording extO doneState "rec1").1 = true ∧
    statusOf (RecordingManager.stop_recording extO doneState "rec1").2.db "rec1"
      = some Status.stopped :=
  (stop_terminal_behavior extO doneState "rec1").2 doneJob (by decide)

/-- Supervisor writes that take a fresh store to a `completed` job: claim,
promote on spawn success, monitor marking the zero-exit process completed. -/
def reachOps : List SupOp :=
  [SupOp.claim "rec1" "Cam" "http://h/a.m3u8" "2026-01-01T00:00:00",
   SupOp.promote "rec1" "/rec/f.ts" none (some 4242),
   SupOp.complete "rec1" "2026-01-01T01:00:00"]

/-- **C3, counterexample.**  The claim says no terminal→anything transition is
ever performed because status updates are conditional on the expected current
status.  On the reachable store where `rec1` is `completed`, the supervisor's
`stop_recording` — whose store write `update_recording_status` is keyed on
`id` only — moves it to `stopped`: a `completed → stopped` transition. -/
theorem status_transitions_counterexample :
    statusOf (runOps reachOps) "rec1" = some Status.completed ∧
    (RecordingManager.stop_recording extO ⟨runOps reachOps, []⟩ "rec1").1 = true ∧
    statusOf (RecordingManager.stop_recording extO ⟨runOps reachOps, []⟩ "rec1").2.db
        "rec1" = some Status.stopped := by
  decide

theorem update_to_recording_no_match {db : List Job} {id : String}
    {fp : String} {hd : Option String} {p : Option Nat}
    (hall : ∀ r ∈ db, (r.id == id && r.status == Status.starting) = false) :
    RecordingDB.update_to_recording db id fp hd p = (db, false) := by
  have h2 : (db.any fun r => r.id == id && r.status == Status.starting) = false := by
    by_contra hc
    rw [Bool.not_eq_false, List.any_eq_true] at hc
    obtain ⟨r, hr, hp⟩ := hc
    rw [hall r hr] at hp
    cases hp
  unfold RecordingDB.update_to_recording
  rw [map_eq_self_of (fun r hr => by rw [if_neg]; simp [hall r hr]), h2]

/-- **C3, amended.**  On every reachable store, the `starting → recording`
promotion `update_to_recording` is conditional on the expected current
status: it returns `False` and leaves the table unchanged unless the row is
currently `starting`, and promotes it to `recording` when it is.
`update_recording_status`, by contrast, is keyed on `id` alone: for the
terminal statuses the supervisor requests through it (`completed`, `failed`,
`stopped`) the `UPDATE` cannot touch the partial unique index, so it never
raises and overwrites any existing row's status regardless of its current one
— this is how the `completed → stopped` transition of the counterexample
arises, beyond the claimed transition diagram.  (For the active statuses,
which the supervisor never requests this way, the `UPDATE` re-enters the
index and SQLite would raise `IntegrityError` on a conflict; see
`update_recording_status`.) -/
theorem status_update_guards (ops : List SupOp) (id fp : String)
    (hd : Option String) (p : Option Nat) (status : Status)
    (err : Option String) (t : String) :
    (¬ statusOf (runOps ops) id = some Status.starting →
      RecordingDB.update_to_recording (runOps ops) id fp hd p = (runOps ops, false)) ∧
    (statusOf (runOps ops) id = some Status.starting →
      statusOf (RecordingDB.update_to_recording (runOps ops) id fp hd p).1 id
        = some Status.recording) ∧
    ((status = Status.completed ∨ status = Status.failed ∨ status = Status.stopped) →
      ¬ statusOf (runOps ops) id = none →
      RecordingDB.update_recording_status (runOps ops) id status err t
          = Except.ok (RecordingDB.apply_status_update (runOps ops) id status err t) ∧
      statusOf (RecordingDB.apply_status_update (runOps ops) id status err t).1 id
        = some status) := by
  refine ⟨?_, ?_, ?_⟩
  · intro hns
    apply update_to_recording_no_match
    intro r hr
    by_contra hc
    rw [Bool.not_eq_false, Bool.and_eq_true, beq_iff_eq, beq_iff_eq] at hc
    have hsome : ∃ r0, (runOps ops).find? (fun x => x.id == id) = some r0 := by
      cases hfind : (runOps ops).find? (fun x => x.id == id) with
      | none =>
        have := List.find?_eq_none.mp hfind r hr
        simp [hc.1] at this
      | some r0 => exact ⟨r0, rfl⟩
    obtain ⟨r0, hfind⟩ := hsome
    have hr0mem : r0 ∈ runOps ops := List.mem_of_find?_eq_some hfind
    have hr0id := List.find?_some hfind
    simp only [beq_iff_eq] at hr0id
    have heq : r0 = r :=
      eq_of_mem_pairwise_ids (storeInv_runOps ops).1 hr0mem hr (hr0id.trans hc.1.symm)
    apply hns
    unfold statusOf
    rw [hfind, Option.map_some', heq, hc.2]
  · intro hs
    obtain ⟨r0, hfind, hst⟩ : ∃ r0, (runOps ops).find? (fun x => x.id == id) = some r0 ∧
        r0.status = Status.starting := by
      unfold statusOf at hs
      cases hfind : (runOps ops).find? (fun x => x.id == id) with
      | none => rw [hfind] at hs; cases hs
      | some r0 =>
        rw [hfind, Option.map_some'] at hs
        exact ⟨r0, rfl, Option.some.inj hs⟩
    have hr0id := List.find?_some hfind
    simp only at hr0id
    unfold statusOf RecordingDB.update_to_recording
    rw [find?_id_map _ _ _ (fun x => by
      by_cases hcx : (x.id == id && x.status == Status.starting) = true <;> simp [hcx])]
    rw [hfind, Option.map_some', Option.map_some']
    rw [if_pos (by simp [hr0id, hst])]
  · intro hterm hn
    have hb : (status == Status.starting || status == Status.recording) = false := by
      rcases hterm with rfl | rfl | rfl <;> decide
    obtain ⟨r0, hfind⟩ : ∃ r0, (runOps ops).find? (fun x => x.id == id) = some r0 := by
      unfold statusOf at hn
      cases hfind : (runOps ops).find? (fun x => x.id == id) with
      | none => rw [hfind] at hn; simp at hn
      | some r0 => exact ⟨r0, rfl⟩
    exact ⟨update_recording_status_terminal _ _ _ _ _ hb,
           statusOf_apply_status_update _ _ _ _ _ hfind⟩

/-- The error path of `update_recording_status` is live for active statuses:
on the reachable store built by claim a/u, complete a, claim b/u, setting row
`a` back to `'recording'` would put a second active row for url u into the
partial unique index, so the modelled `UPDATE` raises `IntegrityError` —
matching SQLite — instead of performing the write. -/
theorem update_recording_status_conflict_example :
    RecordingDB.update_recording_status
        (runOps [SupOp.claim "a" "Cam" "http://h/a.m3u8" "T1",
                 SupOp.complete "a" "T2",
                 SupOp.claim "b" "Cam" "http://h/a.m3u8" "T3"])
        "a" Status.recording none "T4" = Except.error "IntegrityError" := by
  rfl

theorem status_update_guards_witness :
    RecordingDB.update_to_recording (runOps reachOps) "rec1" "/x.ts" none (some 1)
      = (runOps reachOps, false) ∧
    RecordingDB.update_recording_status (runOps reachOps) "rec1" Status.stopped none
        "2026-01-01T02:00:00"
      = Except.ok (RecordingDB.apply_status_update (runOps reachOps) "rec1"
          Status.stopped none "2026-01-01T02:00:00") ∧
    statusOf (RecordingDB.apply_status_update (runOps reachOps) "rec1"
        Status.stopped none "2026-01-01T02:00:00").1 "rec1" = some Status.stopped :=
  ⟨(status_update_guards reachOps "rec1" "/x.ts" none (some 1) Status.stopped none
      "2026-01-01T02:00:00").1 (by decide),
   ((status_update_guards reachOps "rec1" "/x.ts" none (some 1) Status.stopped none
      "2026-01-01T02:00:00").2.2 (Or.inr (Or.inr rfl)) (by decide)).1,
   ((status_update_guards reachOps "rec1" "/x.ts" none (some 1) Status.stopped none
      "2026-01-01T02:00:00").2.2 (Or.inr (Or.inr rfl)) (by decide)).2⟩

/-- A master manifest with two audio-media candidates where only the second
is flagged as the default track. -/
def twoAudioManifest : String :=
  "#EXTM3U\n#EXT-X-MEDIA:TYPE=AUDIO,GROUP-ID=\"aud\",NAME=\"English\",URI=\"audio_en.m3u8\"\n#EXT-X-MEDIA:TYPE=AUDIO,GROUP-ID=\"aud\",NAME=\"Italian\",DEFAULT=YES,URI=\"audio_it.m3u8\"\n#EXT-X-STREAM-INF:BANDWIDTH=1280000,AUDIO=\"aud\"\nvideo.m3u8"

/-- **C4.**  Against the claim (and the parser's own `DEFAULT=YES` test,
which is unreachable because it sits under the `audio_url is None` guard that
already fired), the parser keeps the first-listed audio candidate
`audio_en.m3u8` and not the default-flagged `audio_it.m3u8`. -/
theorem audio_first_candidate_bug :
    RecordingManager.parse_master_playlist
        (RecordingManager.FetchResult.response 200 twoAudioManifest)
      = (some "video.m3u8", some "audio_en.m3u8") ∧
    ¬ (RecordingManager.parse_master_playlist
        (RecordingManager.FetchResult.response 200 twoAudioManifest)).2
      = some "audio_it.m3u8" := by
  decide

/-- A master manifest carrying two stream-variant tag/URI pairs. -/
def twoVariantManifest : String :=
  "#EXTM3U\n#EXT-X-STREAM-INF:BANDWIDTH=800000\nlow.m3u8\n#EXT-X-STREAM-INF:BANDWIDTH=2000000\nhigh.m3u8"

/-- **C5, counterexample.**  The claim says the first tag/URI pair in line
order is chosen; the parser overwrites `video_url` on every pair, so on a
manifest with two pairs it returns the second URI, not the first. -/
theorem first_variant_counterexample :
    (RecordingManager.parse_master_playlist
        (RecordingManager.FetchResult.response 200 twoVariantManifest)).1
      = some "high.m3u8" ∧
    ¬ (RecordingManager.parse_master_playlist
        (RecordingManager.FetchResult.response 200 twoVariantManifest)).1
      = some "low.m3u8" := by
  decide

/-- The stream-variant URI candidates of a manifest in line order, following
the amended spec sentence: every `EXT-X-STREAM-INF` tag line (reached by the
scan's `elif`, i.e. not itself an audio-media line) that is followed by a
non-empty, non-comment line contributes that stripped following line. -/
def streamVariantURIs : List String → List String
  | [] => []
  | line :: rest =>
    (if pyStartsWith line "#EXT-X-MEDIA:" && pyIn "TYPE=AUDIO" line then []
     else if pyStartsWith line "#EXT-X-STREAM-INF:" then
       match rest with
       | [] => []
       | next :: _ =>
         let next_line := pyStrip next
         if !(next_line == "") && !(pyStartsWith next_line "#") then [next_line]
         else []
     else []) ++ streamVariantURIs rest

theorem scanPlaylist_video_spec (lines : List String) :
    ∀ v a, (RecordingManager.scanPlaylist lines v a).1
      = ((streamVariantURIs lines).getLast?).or v := by
  induction lines with
  | nil => intro v a; simp [RecordingManager.scanPlaylist, streamVariantURIs]
  | cons line rest ih =>
    intro v a
    by_cases h1 : (pyStartsWith line "#EXT-X-MEDIA:" && pyIn "TYPE=AUDIO" line) = true
    · simp only [RecordingManager.scanPlaylist, streamVariantURIs, h1, if_true,
        List.nil_append]
      exact ih _ _
    · by_cases h2 : pyStartsWith line "#EXT-X-STREAM-INF:" = true
      · cases rest with
        | nil =>
          simp [RecordingManager.scanPlaylist, streamVariantURIs, h1, h2]
        | cons next rest' =>
          by_cases h3 : (!(pyStrip next == "") && !(pyStartsWith (pyStrip next) "#"))
              = true
          · have hstep : RecordingManager.scanPlaylist (line :: next :: rest') v a
                = RecordingManager.scanPlaylist (next :: rest') (some (pyStrip next)) a := by
              conv_lhs => rw [RecordingManager.scanPlaylist]
              rw [if_neg h1, if_pos h2]
              dsimp only
              rw [if_pos h3]
            have hvar : streamVariantURIs (line :: next :: rest')
                = pyStrip next :: streamVariantURIs (next :: rest') := by
              conv_lhs => rw [streamVariantURIs]
              rw [if_neg h1, if_pos h2]
              dsimp only
              rw [if_pos h3, List.singleton_append]
            rw [hstep, hvar, ih _ _]
            rw [List.getLast?_cons]
            cases hlast : (streamVariantURIs (next :: rest')).getLast? with
            | none =>
              have hnil := List.getLast?_eq_none_iff.mp hlast
              simp [hnil]
            | some u =>
              have : (streamVariantURIs (next :: rest')).getLastD (pyStrip next) = u := by
                cases hv : streamVariantURIs (next :: rest') with
                | nil => rw [hv] at hlast; cases hlast
                | cons x xs =>
                  rw [hv] at hlast
                  rw [List.getLastD_eq_getLast?, hlast]
                  rfl
              simp [this, hlast]
          · simp only [RecordingManager.scanPlaylist, streamVariantURIs, h1, h2, h3,
              if_true, if_false, Bool.false_eq_true, List.nil_append]
            exact ih _ _
      · simp only [RecordingManager.scanPlaylist, streamVariantURIs, h1, h2, if_false,
          Bool.false_eq_true, List.nil_append]
        exact ih _ _

/-- **C5, amended.**  For every fetched manifest body, the parser's chosen
video URL is the URI of the *last* `EXT-X-STREAM-INF` tag/URI pair in line
order (none when no pair qualifies), not the first. -/
theorem parse_video_last_variant (body : String) :
    (RecordingManager.parse_master_playlist
        (RecordingManager.FetchResult.response 200 body)).1
      = (streamVariantURIs (pyLines body)).getLast? := by
  dsimp only [RecordingManager.parse_master_playlist]
  rw [if_neg (by decide)]
  rw [scanPlaylist_video_spec]
  cases (streamVariantURIs (pyLines body)).getLast? <;> rfl

theorem find?_append_fresh (db : List Job) (r0 : Job) (id : String)
    (hid : r0.id = id) (h : hasId db id = false) :
    (db ++ [r0]).find? (fun x => x.id == id) = some r0 := by
  rw [List.find?_append]
  have hnone : db.find? (fun x => x.id == id) = none := by
    rw [List.find?_eq_none]
    intro a ha
    simp [forall_mem_of_any_false h a ha]
  rw [hnone]
  simp [List.find?, hid]

theorem errorOf_apply_status_update (db : List Job) (id : String)
    (status : Status) (err : Option String) (now : String) {r : Job}
    (h : db.find? (fun x => x.id == id) = some r) :
    errorOf (RecordingDB.apply_status_update db id status err now).1 id
      = some err := by
  have hr := List.find?_some h
  simp only at hr
  unfold errorOf RecordingDB.apply_status_update
  rw [find?_id_map _ _ _ (fun x => by
    by_cases hc : (x.id == id) = true <;>
      by_cases hs : (status == Status.completed || status == Status.failed
        || status == Status.stopped) = true <;> simp [hc, hs])]
  rw [h, Option.map_some', Option.map_some']
  rw [if_pos hr]
  by_cases hs : (status == Status.completed || status == Status.failed
      || status == Status.stopped) = true
  · rw [if_pos hs]
  · rw [if_neg hs]

theorem create_starting_entry_fresh (db : List Job) (rid nameval url tClaim : String)
    (h1 : hasActiveUrl db url = false) (h2 : hasId db rid = false) :
    RecordingDB.create_starting_entry db rid nameval url tClaim
      = (db ++ [RecordingDB.mkStarting rid nameval url tClaim], true) := by
  unfold RecordingDB.create_starting_entry
  rw [if_neg (by simp [h1, h2])]

/-- **C6.**  When the master-manifest fetch or parse yields no video URL (any
non-200 response, raised exception, or a body with no stream-variant pair
makes `parse_master_playlist` return `none` for the video), `_prepare_mpd_config`
still returns — no exception escapes — a configuration whose video URL is the
original proxied manifest URL with no separate audio; and a start attempt
using that resolution proceeds: with the spawn succeeding it returns a row
promoted to `recording`, never marking the job failed. -/
theorem mpd_resolution_fallback (s : Settings) (url : String) (ck : Option String)
    (fetch : RecordingManager.FetchResult) (st : SupState) (nm : Option String)
    (dur : Option Nat) (rid genName tClaim tFail : String) (pid : Nat)
    (hparse : (RecordingManager.parse_master_playlist fetch).1 = none) :
    RecordingManager.prepare_mpd_config s url ck fetch
      = { video_url := RecordingManager.mpdMasterUrl s url ck, audio_url := none,
          stream_type := StreamType.mpd, needs_reconnect := true,
          needs_extended_probe := true } ∧
    (hasActiveUrl st.db url = false → hasId st.db rid = false →
      ¬ (RecordingManager.start_recording s st url nm dur ck rid genName tClaim fetch
          (Except.ok pid) tFail).1 = none ∧
      statusOf (RecordingManager.start_recording s st url nm dur ck rid genName tClaim
          fetch (Except.ok pid) tFail).2.db rid = some Status.recording) := by
  constructor
  · unfold RecordingManager.prepare_mpd_config
    dsimp only
    rw [hparse]
  · intro h1 h2
    unfold RecordingManager.start_recording
    dsimp only
    rw [create_starting_entry_fresh st.db rid _ url tClaim h1 h2]
    dsimp only
    have hfind : (st.db ++ [RecordingDB.mkStarting rid
        (if pyTruthyStr nm = true then nm.getD "" else genName) url tClaim]).find?
          (fun x => x.id == rid) = some (RecordingDB.mkStarting rid
        (if pyTruthyStr nm = true then nm.getD "" else genName) url tClaim) :=
      find?_append_fresh _ _ _ rfl h2
    have hstat : statusOf (RecordingDB.update_to_recording
        (st.db ++ [RecordingDB.mkStarting rid
          (if pyTruthyStr nm = true then nm.getD "" else genName) url tClaim]) rid
        (s.recordingsDir ++ "/" ++ RecordingManager.generate_filename rid
          (if pyTruthyStr nm = true then nm.getD "" else genName))
        none (some pid)).1 rid = some Status.recording := by
      unfold statusOf RecordingDB.update_to_recording
      rw [find?_id_map _ _ _ (fun x => by
        by_cases hcx : (x.id == rid && x.status == Status.starting) = true <;>
          simp [hcx])]
      rw [hfind, Option.map_some', Option.map_some']
      rw [if_pos (by simp [RecordingDB.mkStarting])]
    refine ⟨?_, hstat⟩
    intro hnone
    unfold RecordingDB.get_recording at hnone
    unfold statusOf at hstat
    rw [hnone] at hstat
    cases hstat

/-- Concrete settings used by the scenario witnesses. -/
def s0 : Settings :=
  { portStr := "8080", apiPassword := "", recordingsDir := "/recordings" }

theorem mpd_resolution_fallback_witness :
    RecordingManager.prepare_mpd_config s0 "http://h/s.mpd" none
        RecordingManager.FetchResult.exn
      = { video_url := RecordingManager.mpdMasterUrl s0 "http://h/s.mpd" none,
          audio_url := none, stream_type := StreamType.mpd, needs_reconnect := true,
          needs_extended_probe := true } ∧
    (¬ (RecordingManager.start_recording s0 ⟨[], []⟩ "http://h/s.mpd" none none none
        "rec1" "Rec" "T1" RecordingManager.FetchResult.exn (Except.ok 4242) "T2").1
        = none ∧
      statusOf (RecordingManager.start_recording s0 ⟨[], []⟩ "http://h/s.mpd" none none
          none "rec1" "Rec" "T1" RecordingManager.FetchResult.exn (Except.ok 4242)
          "T2").2.db "rec1" = some Status.recording) :=
  have h := mpd_resolution_fallback s0 "http://h/s.mpd" none
    RecordingManager.FetchResult.exn ⟨[], []⟩ none none "rec1" "Rec" "T1" "T2" 4242
    (by decide)
  ⟨h.1, h.2 (by decide) (by decide)⟩

/-- **C8.**  For a start attempt whose claim succeeded, a spawn failure makes
`start_recording` return `None` (the typed failure outcome, not an unhandled
exception), set the job's status to `failed` carrying the failure reason —
the row does not remain in `starting`. -/
theorem spawn_failure_marks_failed (s : Settings) (st : SupState) (url : String)
    (nm : Option String) (dur : Option Nat) (ck : Option String)
    (rid genName tClaim tFail e : String)
    (h1 : hasActiveUrl st.db url = false) (h2 : hasId st.db rid = false)
    (fetch : RecordingManager.FetchResult) :
    (RecordingManager.start_recording s st url nm dur ck rid genName tClaim fetch
        (Except.error e) tFail).1 = none ∧
    statusOf (RecordingManager.start_recording s st url nm dur ck rid genName tClaim
        fetch (Except.error e) tFail).2.db rid = some Status.failed ∧
    errorOf (RecordingManager.start_recording s st url nm dur ck rid genName tClaim
        fetch (Except.error e) tFail).2.db rid = some (some e) ∧
    ¬ statusOf (RecordingManager.start_recording s st url nm dur ck rid genName tClaim
        fetch (Except.error e) tFail).2.db rid = some Status.starting := by
  unfold RecordingManager.start_recording
  dsimp only
  rw [create_starting_entry_fresh st.db rid _ url tClaim h1 h2]
  dsimp only
  have hfind := find?_append_fresh st.db (RecordingDB.mkStarting rid
    (if pyTruthyStr nm = true then nm.getD "" else genName) url tClaim) rid rfl h2
  simp only [update_status_failed_eq]
  refine ⟨by trivial, statusOf_apply_status_update _ _ _ _ _ hfind,
    errorOf_apply_status_update _ _ _ _ _ hfind, ?_⟩
  rw [statusOf_apply_status_update _ _ _ _ _ hfind]
  intro hc
  cases hc

theorem spawn_failure_marks_failed_witness :
    (RecordingManager.start_recording s0 ⟨[], []⟩ "http://h/a.m3u8" none none none
        "rec1" "Rec" "T1" RecordingManager.FetchResult.exn
        (Except.error "spawn failed") "T2").1 = none ∧
    statusOf (RecordingManager.start_recording s0 ⟨[], []⟩ "http://h/a.m3u8" none none
        none "rec1" "Rec" "T1" RecordingManager.FetchResult.exn
        (Except.error "spawn failed") "T2").2.db "rec1" = some Status.failed ∧
    errorOf (RecordingManager.start_recording s0 ⟨[], []⟩ "http://h/a.m3u8" none none
        none "rec1" "Rec" "T1" RecordingManager.FetchResult.exn
        (Except.error "spawn failed") "T2").2.db "rec1" = some (some "spawn failed") ∧
    ¬ statusOf (RecordingManager.start_recording s0 ⟨[], []⟩ "http://h/a.m3u8" none
        none none "rec1" "Rec" "T1" RecordingManager.FetchResult.exn
        (Except.error "spawn failed") "T2").2.db "rec1" = some Status.starting :=
  spawn_failure_marks_failed s0 ⟨[], []⟩ "http://h/a.m3u8" none none none "rec1" "Rec"
    "T1" "T2" "spawn failed" (by decide) (by decide) RecordingManager.FetchResult.exn

theorem natDigits_isDigit : ∀ n : Nat, ∀ c ∈ natDigits n, c.isDigit = true := by
  intro n
  induction n using Nat.strong_induction_on with
  | _ n ih =>
    have hdig : ∀ m : Nat, (digitCh m).isDigit = true := by
      intro m
      have hm : m % 10 < 10 := Nat.mod_lt _ (by omega)
      unfold digitCh
      set k := m % 10 with hk
      interval_cases k <;> decide
    unfold natDigits
    by_cases h : n < 10
    · rw [dif_pos h]
      intro c hc
      rw [List.mem_singleton] at hc
      subst hc
      exact hdig n
    · rw [dif_neg h]
      intro c hc
      rcases List.mem_append.mp hc with hc' | hc'
      · exact ih (n / 10) (Nat.div_lt_self (by omega) (by omega)) c hc'
      · rw [List.mem_singleton] at hc'
        subst hc'
        exact hdig (n % 10)

theorem pyStr_ne_reconnect (n : Nat) : ¬ pyStr n = "-reconnect" := by
  intro h
  have hd : natDigits n = ("-reconnect" : String).data := congrArg String.data h
  have hmem : '-' ∈ natDigits n := by
    rw [hd]
    decide
  have := natDigits_isDigit n '-' hmem
  cases this

theorem hlsProxyUrl_ne_reconnect (s : Settings) (url : String) :
    ¬ RecordingManager.hlsProxyUrl s url = "-reconnect" := by
  intro h
  have hd := congrArg String.data h
  simp [RecordingManager.hlsProxyUrl, String.data_append] at hd

theorem hlsProxyUrl_startsWith_http (s : Settings) (url : String) :
    pyStartsWith (RecordingManager.hlsProxyUrl s url) "http" = true := by
  unfold pyStartsWith RecordingManager.hlsProxyUrl
  rw [String.data_append, String.data_append, String.data_append]
  rw [show ("http" : String).data = ['h', 't', 't', 'p'] from rfl]
  rw [show ("http://127.0.0.1:" : String).data
      = 'h' :: 't' :: 't' :: 'p' :: ("://127.0.0.1:" : String).data from rfl]
  simp [List.isPrefixOf]

/-- **C9.**  For every capture configuration produced by `_prepare_hls_config`
— in particular for a GENERIC-classified HLS source, whose `needs_reconnect`
is always `false` since GENERIC is not in `RECONNECT_TYPES` — the built argv
contains the `-reconnect` flag exactly when `needs_reconnect` is true, and
when it is true the flags come together with the `-rw_timeout` read timeout. -/
theorem generic_hls_reconnect_flags (s : Settings) (url : String) (ty : StreamType)
    (output_path : String) (dur : Option Nat)
    (hout : ¬ output_path = "-reconnect") :
    (("-reconnect" : String) ∈ RecordingManager.build_ffmpeg_command
        (RecordingManager.prepare_hls_config s url ty) output_path dur ↔
      (RecordingManager.prepare_hls_config s url ty).needs_reconnect = true) ∧
    ((RecordingManager.prepare_hls_config s url ty).needs_reconnect = true →
      ("-rw_timeout" : String) ∈ RecordingManager.build_ffmpeg_command
        (RecordingManager.prepare_hls_config s url ty) output_path dur) ∧
    (RecordingManager.prepare_hls_config s url StreamType.generic).needs_reconnect
      = false := by
  have hvne : ¬ ("-reconnect" : String) = RecordingManager.hlsProxyUrl s url :=
    fun h => hlsProxyUrl_ne_reconnect s url h.symm
  have houtr : ¬ ("-reconnect" : String) = output_path := fun h => hout h.symm
  have hpyne : ∀ n : Nat, ¬ ("-reconnect" : String) = pyStr n :=
    fun n h => pyStr_ne_reconnect n h.symm
  refine ⟨?_, ?_, rfl⟩
  · unfold RecordingManager.build_ffmpeg_command RecordingManager.prepare_hls_config
    dsimp only
    rw [if_pos (hlsProxyUrl_startsWith_http s url)]
    by_cases hnr : RecordingManager.RECONNECT_TYPES.contains ty = true
    · rw [hnr]
      simp only [if_true, iff_true]
      by_cases hm : pyIn ".m3u8" (pyLower (RecordingManager.hlsProxyUrl s url)) = true <;>
        by_cases hd : pyTruthyNat dur = true <;>
          simp [hm, hd]
    · rw [Bool.not_eq_true] at hnr
      rw [hnr]
      simp only [Bool.false_eq_true, if_false, iff_false]
      by_cases hm : pyIn ".m3u8" (pyLower (RecordingManager.hlsProxyUrl s url)) = true <;>
        by_cases hd : pyTruthyNat dur = true <;>
          simp [hm, hd, hvne, houtr, hpyne]
  · intro hr
    unfold RecordingManager.build_ffmpeg_command RecordingManager.prepare_hls_config
    dsimp only
    unfold RecordingManager.prepare_hls_config at hr
    dsimp only at hr
    rw [if_pos (hlsProxyUrl_startsWith_http s url), hr]
    by_cases hm : pyIn ".m3u8" (pyLower (RecordingManager.hlsProxyUrl s url)) = true <;>
      by_cases hd : pyTruthyNat dur = true <;>
        simp [hm, hd]

theorem generic_hls_reconnect_flags_witness :
    (("-reconnect" : String) ∈ RecordingManager.build_ffmpeg_command
        (RecordingManager.prepare_hls_config s0 "http://h/live" StreamType.generic)
        "/recordings/r.ts" (some 3600) ↔
      (RecordingManager.prepare_hls_config s0 "http://h/live"
        StreamType.generic).needs_reconnect = true) ∧
    ((RecordingManager.prepare_hls_config s0 "http://h/live"
        StreamType.generic).needs_reconnect = true →
      ("-rw_timeout" : String) ∈ RecordingManager.build_ffmpeg_command
        (RecordingManager.prepare_hls_config s0 "http://h/live" StreamType.generic)
        "/recordings/r.ts" (some 3600)) ∧
    (RecordingManager.prepare_hls_config s0 "http://h/live"
        StreamType.generic).needs_reconnect = false :=
  generic_hls_reconnect_flags s0 "http://h/live" StreamType.generic
    "/recordings/r.ts" (some 3600) (by decide)

theorem filter_eq_self_of {α : Type} {l : List α} {p : α → Bool}
    (h : ∀ a ∈ l, p a = true) : l.filter p = l := by
  induction l with
  | nil => rfl
  | cons a l ih =>
    rw [List.filter_cons, if_pos (h a (by simp)), ih fun b hb => h b (by simp [hb])]

theorem filter_map_id_pres {db : List Job} {f : Job → Job} {i : String}
    (hid : ∀ r, (f r).id = r.id) (hfix : ∀ r, ¬ r.id = i → f r = r) :
    (db.map f).filter (fun r => !(r.id == i)) = db.filter (fun r => !(r.id == i)) := by
  induction db with
  | nil => rfl
  | cons a l ih =>
    rw [List.map_cons, List.filter_cons, List.filter_cons]
    by_cases hc : a.id = i
    · rw [if_neg (by simp [hid, hc]), if_neg (by simp [hc]), ih]
    · rw [if_pos (by simp [hid, hc]), if_pos (by simp [hc]), hfix a hc, ih]

theorem stop_db_mapish (ext : ExtOracle) (st : SupState) (i : String) :
    ∃ g : Job → Job, (∀ r, (g r).id = r.id) ∧ (∀ r, ¬ r.id = i → g r = r) ∧
      (RecordingManager.stop_recording ext st i).2.db = st.db.map g := by
  unfold RecordingManager.stop_recording
  cases hget : RecordingDB.get_recording st.db i with
  | none =>
    exact ⟨id, fun r => rfl, fun r _ => rfl, by simp⟩
  | some rec =>
    dsimp only
    simp only [update_status_stopped_eq]
    unfold RecordingDB.apply_status_update RecordingDB.update_recording_file_info
    dsimp only
    have hdb : (if st.processes.contains i = true then
        { st with processes := st.processes.filter fun x => !(x == i) } else st).db
          = st.db := by
      by_cases hc : st.processes.contains i = true
      · rw [if_pos hc]
      · rw [if_neg hc]
    rw [hdb]
    by_cases hfp : pyTruthyStr rec.file_path = true
    · by_cases hex : ext.fileExists (rec.file_path.getD "") = true
      · rw [if_pos hfp, if_pos hex]
        refine ⟨_, ?_, ?_, List.map_map _ _ _⟩
        · intro r
          by_cases hc : (r.id == i) = true <;> simp [Function.comp, hc]
        · intro r hr
          have hc : (r.id == i) = false := by simpa using hr
          simp [Function.comp, hc]
      · rw [if_pos hfp, if_neg hex]
        refine ⟨_, ?_, ?_, rfl⟩
        · intro r
          by_cases hc : (r.id == i) = true <;> simp [hc]
        · intro r hr
          have hc : (r.id == i) = false := by simpa using hr
          simp [hc]
    · rw [if_neg hfp]
      refine ⟨_, ?_, ?_, rfl⟩
      · intro r
        by_cases hc : (r.id == i) = true <;> simp [hc]
      · intro r hr
        have hc : (r.id == i) = false := by simpa using hr
        simp [hc]

theorem delete_recording_mgr_db (ext : ExtOracle) (st : SupState) (i : String) :
    (RecordingManager.delete_recording ext st i).2.db
      = st.db.filter (fun r => !(r.id == i)) := by
  unfold RecordingManager.delete_recording
  dsimp only
  have hsh : ∃ g : Job → Job, (∀ r, (g r).id = r.id) ∧ (∀ r, ¬ r.id = i → g r = r) ∧
      (if st.processes.contains i = true then (RecordingManager.stop_recording ext st i).2
       else st).db = st.db.map g := by
    by_cases hc : st.processes.contains i = true
    · rw [if_pos hc]; exact stop_db_mapish ext st i
    · rw [if_neg hc]; exact ⟨id, fun r => rfl, fun r _ => rfl, by simp⟩
  obtain ⟨g, hgid, hgfix, hgdb⟩ := hsh
  cases hget : RecordingDB.get_recording
      (if st.processes.contains i = true then (RecordingManager.stop_recording ext st i).2
       else st).db i with
  | none =>
    dsimp only
    rw [hgdb]
    unfold RecordingDB.get_recording at hget
    rw [hgdb] at hget
    rw [List.find?_eq_none] at hget
    have hall : ∀ r ∈ st.db, ¬ r.id = i := by
      intro r hr hri
      have := hget (g r) (List.mem_map_of_mem g hr)
      rw [hgid, hri] at this
      simp at this
    rw [map_eq_self_of fun r hr => hgfix r (hall r hr)]
    rw [filter_eq_self_of fun r hr => by simp [hall r hr]]
  | some rec =>
    dsimp only
    unfold RecordingDB.delete_recording
    dsimp only
    rw [hgdb, filter_map_id_pres hgid hgfix]

theorem foldl_delete_db (ext : ExtOracle) (L : List Job) :
    ∀ st : SupState,
      (L.foldl (fun acc r => (RecordingManager.delete_recording ext acc r.id).2) st).db
        = st.db.filter (fun r => !(L.any fun x => r.id == x.id)) := by
  induction L with
  | nil =>
    intro st
    rw [List.foldl_nil, filter_eq_self_of fun a _ => by simp]
  | cons x L' ih =>
    intro st
    rw [List.foldl_cons, ih, delete_recording_mgr_db, List.filter_filter]
    apply List.filter_congr
    intro a _
    simp only [List.any_cons, Bool.not_or, Bool.and_comm]

/-- An old row still in status `starting` (claimed by a worker that never
promoted or failed it). -/
def staleJob : Job :=
  { id := "rec1", name := "Cam", url := "http://h/a.m3u8", status := .starting,
    started_at := "2026-01-01T00:00:00" }

/-- Store holding just `staleJob`, no local process handles. -/
def staleState : SupState := { db := [staleJob], processes := [] }

/-- **C7, counterexample.**  The claim says a row still in status `starting`
is never deleted by the sweep.  `get_old_recordings` selects
`started_at < cutoff AND status != 'recording'` — which includes `starting` —
so one sweep iteration over this store deletes the stale starting row. -/
theorem sweep_deletes_starting_counterexample :
    staleJob.status = Status.starting ∧
    RecordingDB.get_old_recordings staleState.db "2026-02-01T00:00:00" = [staleJob] ∧
    (RecordingManager.cleanup_old_recordings extO staleState "2026-02-01T00:00:00").db
      = [] := by
  decide

/-- **C7, amended.**  A sweep iteration deletes a job if and only if it is
older than the retention horizon and its status is not `recording`: terminal
jobs *and* `starting` rows alike; only rows in status `recording` (or younger
than the horizon) survive. -/
theorem sweep_deletes_old_nonrecording (ext : ExtOracle) (st : SupState)
    (cutoff : String) (r : Job)
    (hids : st.db.Pairwise fun a b => ¬ a.id = b.id) :
    r ∈ (RecordingManager.cleanup_old_recordings ext st cutoff).db ↔
      r ∈ st.db ∧
        ¬ (strLt r.started_at cutoff = true ∧ ¬ r.status = Status.recording) := by
  unfold RecordingManager.cleanup_old_recordings
  rw [foldl_delete_db, List.mem_filter]
  constructor
  · rintro ⟨hmem, hpred⟩
    refine ⟨hmem, ?_⟩
    rintro ⟨hold, hnr⟩
    have hany : (RecordingDB.get_old_recordings st.db cutoff).any
        (fun x => r.id == x.id) = true := by
      rw [List.any_eq_true]
      refine ⟨r, ?_, by simp⟩
      unfold RecordingDB.get_old_recordings
      rw [List.mem_filter]
      exact ⟨hmem, by simp [hold, hnr]⟩
    rw [hany] at hpred
    cases hpred
  · rintro ⟨hmem, hnot⟩
    refine ⟨hmem, ?_⟩
    have hany : (RecordingDB.get_old_recordings st.db cutoff).any
        (fun x => r.id == x.id) = false := by
      by_contra hc
      rw [Bool.not_eq_false, List.any_eq_true] at hc
      obtain ⟨x, hx, hxid⟩ := hc
      unfold RecordingDB.get_old_recordings at hx
      have hxdb := List.mem_of_mem_filter hx
      have hxp := List.of_mem_filter hx
      have hxr : x = r := by
        apply eq_of_mem_pairwise_ids hids hxdb hmem
        have : r.id = x.id := by simpa using hxid
        exact this.symm
      subst hxr
      rw [Bool.and_eq_true] at hxp
      exact hnot ⟨hxp.1, by simpa using hxp.2⟩
    rw [hany]
    rfl

theorem sweep_deletes_old_nonrecording_witness :
    staleJob ∈ (RecordingManager.cleanup_old_recordings extO staleState
        "2026-02-01T00:00:00").db ↔
      staleJob ∈ staleState.db ∧
        ¬ (strLt staleJob.started_at "2026-02-01T00:00:00" = true ∧
           ¬ staleJob.status = Status.recording) :=
  sweep_deletes_old_nonrecording extO staleState "2026-02-01T00:00:00" staleJob
    (by decide)

theorem mem_insertByStartedDesc (r a : Job) (l : List Job) :
    a ∈ RecordingDB.insertByStartedDesc r l ↔ a = r ∨ a ∈ l := by
  induction l with
  | nil => simp [RecordingDB.insertByStartedDesc]
  | cons x xs ih =>
    unfold RecordingDB.insertByStartedDesc
    by_cases hc : strLt x.started_at r.started_at = true
    · rw [if_pos hc]
      simp [List.mem_cons]
    · rw [if_neg hc]
      simp only [List.mem_cons, ih]
      tauto

theorem length_insertByStartedDesc (r : Job) (l : List Job) :
    (RecordingDB.insertByStartedDesc r l).length = l.length + 1 := by
  induction l with
  | nil => rfl
  | cons x xs ih =>
    unfold RecordingDB.insertByStartedDesc
    by_cases hc : strLt x.started_at r.started_at = true
    · rw [if_pos hc]
      rfl
    · rw [if_neg hc]
      simp [ih]

theorem mem_sortByStartedDesc (a : Job) (l : List Job) :
    a ∈ RecordingDB.sortByStartedDesc l ↔ a ∈ l := by
  induction l with
  | nil => simp [RecordingDB.sortByStartedDesc]
  | cons x xs ih =>
    unfold RecordingDB.sortByStartedDesc at ih ⊢
    rw [List.foldr_cons, mem_insertByStartedDesc, ih, List.mem_cons]

theorem length_sortByStartedDesc (l : List Job) :
    (RecordingDB.sortByStartedDesc l).length = l.length := by
  induction l with
  | nil => rfl
  | cons x xs ih =>
    unfold RecordingDB.sortByStartedDesc at ih ⊢
    rw [List.foldr_cons, length_insertByStartedDesc, ih, List.length_cons]

/-- Membership in `get_active_recordings`, for every store: the rows the
method touches are only the first 100 `recording`-status rows in descending
`started_at` order (the Python default `LIMIT 100` of `get_all_recordings`);
among those, exactly the ones passing `_is_recording_active` are returned,
enriched. -/
theorem listActive_window_mem (ext : ExtOracle) (st : SupState)
    (e : RecordingManager.EnrichedJob) :
    e ∈ RecordingManager.get_active_recordings ext st ↔
      ∃ r, r ∈ (RecordingDB.sortByStartedDesc
            (st.db.filter fun x => x.status == Status.recording)).take 100 ∧
        r.status = Status.recording ∧
        (match r.pid with
         | some p => if p = 0 then st.processes.contains r.id = true
                     else ext.alive p = true
         | none => st.processes.contains r.id = true) ∧
        e = RecordingManager.enrich_recording ext st.processes r := by
  unfold RecordingManager.get_active_recordings RecordingDB.get_all_recordings
  dsimp only
  rw [List.mem_map]
  constructor
  · rintro ⟨r, hrf, he⟩
    rw [List.mem_filter] at hrf
    obtain ⟨hrW, hact⟩ := hrf
    have hstatus : r.status = Status.recording := by
      have hrs := List.take_subset _ _ hrW
      rw [mem_sortByStartedDesc, List.mem_filter] at hrs
      simpa using hrs.2
    refine ⟨r, hrW, hstatus, ?_, he.symm⟩
    unfold RecordingManager.is_recording_active at hact
    rw [if_neg (by simp [hstatus])] at hact
    cases hpid : r.pid with
    | none =>
      rw [hpid] at hact
      simp only [pyTruthyNat, Bool.false_eq_true, if_false, hstatus] at hact
      simpa using hact
    | some p =>
      rw [hpid] at hact
      by_cases hz : p = 0
      · subst hz
        simp only [pyTruthyNat, hstatus] at hact
        simpa using hact
      · simp only [pyTruthyNat, hstatus, RecordingDB.is_pid_running] at hact
        simp only [hz]
        simp [hz] at hact
        simpa [if_neg hz] using hact
  · rintro ⟨r, hrW, hstatus, hprobe, he⟩
    refine ⟨r, ?_, he.symm⟩
    rw [List.mem_filter]
    refine ⟨hrW, ?_⟩
    unfold RecordingManager.is_recording_active
    rw [if_neg (by simp [hstatus])]
    cases hpid : r.pid with
    | none =>
      rw [hpid] at hprobe
      simp only [pyTruthyNat, Bool.false_eq_true, if_false, hstatus]
      simpa using hprobe
    | some p =>
      rw [hpid] at hprobe
      by_cases hz : p = 0
      · subst hz
        simp only at hprobe
        simp only [pyTruthyNat, hstatus]
        simpa using hprobe
      · simp only [hz] at hprobe
        simp only [pyTruthyNat, hstatus, RecordingDB.is_pid_running]
        simp [hz]
        simpa [if_neg hz] using hprobe

/-- External world in which every pid-liveness probe succeeds. -/
def aliveExt : ExtOracle :=
  { alive := fun _ => true, fileExists := fun _ => false, fileSize := fun _ => 0,
    elapsedOf := fun _ => 0, now := "2026-02-02T00:00:00" }

/-- The `k`-th of many live recording rows (distinct ids and urls, pid set,
`started_at` distinct). -/
def manyJob (k : Nat) : Job :=
  { id := Nat.repr k, name := "Cam", url := Nat.repr k, status := .recording,
    started_at := Nat.repr k, pid := some 4242 }

/-- Store holding 101 `recording` rows, all of whose pids are alive under
`aliveExt`. -/
def bigState : SupState := { db := (List.range 101).map manyJob, processes := [] }

/-- **C10, counterexample.**  The claim says `listActive` returns exactly the
stored rows in the active status that pass the pid-liveness probe.  On a
store with 101 `recording` rows whose pids are all alive, the `LIMIT 100` of
`get_all_recordings` drops one live row (`manyJob 0`, whose `started_at`
sorts last in descending order): it is stored, recording, and passes
`_is_recording_active`, yet it is not returned. -/
theorem listActive_limit_counterexample :
    manyJob 0 ∈ bigState.db ∧
    (manyJob 0).status = Status.recording ∧
    RecordingManager.is_recording_active aliveExt bigState.processes (manyJob 0)
      = true ∧
    ¬ RecordingManager.enrich_recording aliveExt bigState.processes (manyJob 0)
        ∈ RecordingManager.get_active_recordings aliveExt bigState := by
  decide

/-- A persisted `recording` row whose recorded pid is no longer alive under
the `extO` oracle. -/
def deadPidJob : Job :=
  { id := "rec9", name := "Cam9", url := "http://h/nine.m3u8",
    status := .recording, started_at := "2026-01-01T00:00:00", pid := some 777 }

/-- Store holding just `deadPidJob`. -/
def deadPidState : SupState := { db := [deadPidJob], processes := [] }

/-- **C10, amended.**  `get_active_recordings` returns exactly (the
enrichments of) the rows, among the first 100 `recording`-status rows in
descending `started_at` order (the `LIMIT 100` window of
`get_all_recordings`), that additionally pass the liveness test: a truthy pid
must pass the `os.kill(pid, 0)` probe, and a row without a usable pid needs a
live local process handle.  A `recording` row beyond the 100-row window is
omitted even when live; within the window, a row whose recorded pid is dead
is omitted even though its stored status is unchanged.  When the store has at
most 100 `recording` rows the window covers them all, giving the original
reading: exactly the stored recording rows passing the probe. -/
theorem listActive_window_live_rows (ext : ExtOracle) (st : SupState)
    (e : RecordingManager.EnrichedJob) :
    (e ∈ RecordingManager.get_active_recordings ext st ↔
      ∃ r, r ∈ (RecordingDB.sortByStartedDesc
            (st.db.filter fun x => x.status == Status.recording)).take 100 ∧
        r.status = Status.recording ∧
        (match r.pid with
         | some p => if p = 0 then st.processes.contains r.id = true
                     else ext.alive p = true
         | none => st.processes.contains r.id = true) ∧
        e = RecordingManager.enrich_recording ext st.processes r) ∧
    ((st.db.filter fun r => r.status == Status.recording).length ≤ 100 →
      (e ∈ RecordingManager.get_active_recordings ext st ↔
        ∃ r, r ∈ st.db ∧ r.status = Status.recording ∧
          (match r.pid with
           | some p => if p = 0 then st.processes.contains r.id = true
                       else ext.alive p = true
           | none => st.processes.contains r.id = true) ∧
          e = RecordingManager.enrich_recording ext st.processes r)) := by
  refine ⟨listActive_window_mem ext st e, ?_⟩
  intro hlim
  rw [listActive_window_mem ext st e]
  constructor
  · rintro ⟨r, hrW, hstatus, hprobe, he⟩
    rw [List.take_of_length_le (by rw [length_sortByStartedDesc]; exact hlim)] at hrW
    rw [mem_sortByStartedDesc, List.mem_filter] at hrW
    exact ⟨r, hrW.1, hstatus, hprobe, he⟩
  · rintro ⟨r, hrdb, hstatus, hprobe, he⟩
    refine ⟨r, ?_, hstatus, hprobe, he⟩
    rw [List.take_of_length_le (by rw [length_sortByStartedDesc]; exact hlim)]
    rw [mem_sortByStartedDesc, List.mem_filter]
    exact ⟨hrdb, by simp [hstatus]⟩

theorem listActive_window_live_rows_witness :
    (RecordingManager.enrich_recording extO deadPidState.processes deadPidJob
        ∈ RecordingManager.get_active_recordings extO deadPidState ↔
      ∃ r, r ∈ (RecordingDB.sortByStartedDesc
            (deadPidState.db.filter fun x => x.status == Status.recording)).take 100 ∧
        r.status = Status.recording ∧
        (match r.pid with
         | some p => if p = 0 then deadPidState.processes.contains r.id = true
                     else extO.alive p = true
         | none => deadPidState.processes.contains r.id = true) ∧
        RecordingManager.enrich_recording extO deadPidState.processes deadPidJob
          = RecordingManager.enrich_recording extO deadPidState.processes r) ∧
    (RecordingManager.enrich_recording extO deadPidState.processes deadPidJob
        ∈ RecordingManager.get_active_recordings extO deadPidState ↔
      ∃ r, r ∈ deadPidState.db ∧ r.status = Status.recording ∧
        (match r.pid with
         | some p => if p = 0 then deadPidState.processes.contains r.id = true
                     else extO.alive p = true
         | none => deadPidState.processes.contains r.id = true) ∧
        RecordingManager.enrich_recording extO deadPidState.processes deadPidJob
          = RecordingManager.enrich_recording extO deadPidState.processes r) :=
  have h := listActive_window_live_rows extO deadPidState
    (RecordingManager.enrich_recording extO deadPidState.processes deadPidJob)
  ⟨h.1, h.2 (by decide)⟩
